import Mathlib

/-!
Verification development for the `cr_kyoushi.generator` template resolution
engine (kyoushi-generator).  The Python sources under
`src/cr_kyoushi/generator/` are shallowly embedded below: dictionaries become
association lists with Python `dict` lookup/update semantics, `pathlib.Path`
values become lists of path components, the two `deque` deletion queues become
lists (append on the right, pop from the right), and the filesystem side
effects of a render pass become an explicit event trace.
-/

namespace Kyoushi

/-- Structured native values, as produced by Jinja2 `NativeEnvironment`
rendering and consumed by the YAML codec (mappings, sequences, scalars). -/
inductive Value where
  | null : Value
  | bool (b : Bool) : Value
  | int (n : Int) : Value
  | str (s : String) : Value
  | list (xs : List Value) : Value
  | map (kvs : List (String × Value)) : Value

/-- A Python `dict` with string keys, embedded as an association list. -/
abbrev CtxMap := List (String × Value)

/-- Python `dict` lookup (`d[k]` / `d.get(k)`): the value stored under `k`. -/
def CtxMap.lookup (d : CtxMap) (k : String) : Option Value :=
  match d with
  | [] => none
  | p :: rest => if p.1 = k then some p.2 else CtxMap.lookup rest k

/-- Python `d[k] = v`: replace the value of an existing key in place, or
append a new binding at the end. -/
def CtxMap.set (d : CtxMap) (k : String) (v : Value) : CtxMap :=
  if d.any (fun p => p.1 = k) then
    d.map (fun p => if p.1 = k then (k, v) else p)
  else
    d ++ [(k, v)]

/-- Python `d.update(e)`: set every binding of `e` in `d`, in order. -/
def CtxMap.update (d e : CtxMap) : CtxMap :=
  e.foldl (fun acc p => CtxMap.set acc p.1 p.2) d

/-- A `pathlib.Path`, embedded as its list of components.  `Path(".")` is the
empty list; `joinpath` with a relative component appends. -/
abbrev Path := List String

/-- Embedding of `p.joinpath(s)` for a single relative component `s`. -/
def Path.joinpath (p : Path) (s : String) : Path := p ++ [s]

/-- Embedding of `p.joinpath(q)` for a relative sub-path `q` (used by
`setup_tsm` when prefixing queued paths with the TSM destination
directory). -/
def Path.join (p q : Path) : Path := p ++ q

/-- The template object tree of `template.py` (`File` / `Directory`,
both deriving `BaseFileObject`).  Field order follows the pydantic model
declaration order: `name`, `extra` (from `BaseObject`), `src`, `dest`,
`delete` (from `BaseFileObject`), then `copy` and `contents` for
directories. -/
inductive TemplateObject where
  | file (name : String) (extra : CtxMap) (src : String) (dest : String)
      (delete : Bool) : TemplateObject
  | dir (name : String) (extra : CtxMap) (src : String) (dest : String)
      (delete : Bool) (copy : List String) (contents : List TemplateObject) :
      TemplateObject

/-- The `delete` field shared by both template object kinds. -/
def TemplateObject.delete : TemplateObject → Bool
  | .file _ _ _ _ del => del
  | .dir _ _ _ _ del _ _ => del

/-- The `src` field shared by both template object kinds. -/
def TemplateObject.src : TemplateObject → String
  | .file _ _ s _ _ => s
  | .dir _ _ s _ _ _ _ => s

/-- The three-layer context dict assembled by `render_tim` for a `File` node:
`{"context": ..., "parent_context": ..., "local_context": ...}`. -/
structure RenderContext where
  context : CtxMap
  parent_context : CtxMap
  local_context : CtxMap

/-- One filesystem side effect of a render pass, in execution order. -/
inductive Event where
  | mkdir (dest : Path) : Event
  | copyGlob (src dest : Path) (glb : String) : Event
  | writeTemplate (src dest : Path) (ctx : RenderContext) : Event
  | unlink (p : Path) : Event
  | rmtree (p : Path) : Event

/-- Whether an event deletes something (`unlink` or `rmtree`). -/
def Event.isDeletion : Event → Bool
  | .unlink _ => true
  | .rmtree _ => true
  | _ => false

/-- Function `render_tim` of `template.py` (lines 445-524).  Walks the
template object list; directories are created, their `copy` globs resolved
(abstracted as one `copyGlob` event per pattern), children recursed into
with a fresh updated parent context; files are rendered via `write_template`
(abstracted as a `writeTemplate` event recording the three-layer context).
The two deletion queues are threaded exactly as in the source: a `Directory`
pushes its `src` onto `delete_dirs` when `obj.delete and src not in
delete_files`; a `File` pushes its `src` onto `delete_files` when
`obj.delete and src not in delete_files`.  Returns the event trace together
with the final `(delete_dirs, delete_files)` queues. -/
def render_tim (object_list : List TemplateObject) (src_dir dest_dir : Path)
    (global_context parent_context : CtxMap)
    (delete_dirs delete_files : List Path) :
    List Event × List Path × List Path :=
  match object_list with
  | [] => ([], delete_dirs, delete_files)
  | obj :: rest =>
    match obj with
    | .file _name extra s d del =>
      let src := src_dir.joinpath s
      let dest := dest_dir.joinpath d
      let context : RenderContext :=
        ⟨global_context, parent_context, extra⟩
      let delete_files' :=
        if del ∧ src ∉ delete_files then delete_files ++ [src] else delete_files
      let r := render_tim rest src_dir dest_dir global_context parent_context
        delete_dirs delete_files'
      (.writeTemplate src dest context :: r.1, r.2)
    | .dir _name extra s d del copy contents =>
      let src := src_dir.joinpath s
      let dest := dest_dir.joinpath d
      let copyEvents := copy.map (fun glb => Event.copyGlob src dest glb)
      let new_parent_context := (parent_context).update extra
      let delete_dirs' :=
        if del ∧ src ∉ delete_files then delete_dirs ++ [src] else delete_dirs
      let r1 := render_tim contents src dest global_context new_parent_context
        delete_dirs' delete_files
      let r2 := render_tim rest src_dir dest_dir global_context parent_context
        r1.2.1 r1.2.2
      (.mkdir dest :: (copyEvents ++ (r1.1 ++ r2.1)), r2.2.1, r2.2.2)

/-- The order in which a `deque` is emptied by a `while q: x = q.pop()` loop:
elements are removed from the right end (most recently appended first). -/
def drainOrder {α : Type} (q : List α) : List α :=
  match q with
  | [] => []
  | x :: xs => (x :: xs).getLast (by simp) :: drainOrder (x :: xs).dropLast
termination_by q.length
decreasing_by
  simp [List.length_dropLast]

/-- The render-and-clean phase of `setup_tsm` (`cli.py` lines 284-301): call
`render_tim` on the validated object config with `src_dir = Path(".")`,
`dest_dir = dest`, `global_context = inputs` and `parent_context = context`
(the mapping rendered from the context document), starting with fresh empty
queues; then pop-drain the file queue (`f.unlink()`), then pop-drain the
directory queue (`shutil.rmtree(d)`), each path prefixed with `dest`. -/
def setup_tsm (inputs context : CtxMap) (object_config : List TemplateObject)
    (dest : Path) : List Event :=
  let r := render_tim object_config [] dest inputs context [] []
  r.1 ++ (drainOrder r.2.2).map (fun f => Event.unlink (dest.join f))
    ++ (drainOrder r.2.1).map (fun d => Event.rmtree (dest.join d))

/-- A minimal inline Jinja2 template: a literal value or a single variable
reference (`"{{ name }}"`). -/
inductive Template where
  | lit (v : Value) : Template
  | var (name : String) : Template

/-- The observable configuration of a Jinja2 `NativeEnvironment` relevant to
undefined handling: the undefined policy and the global namespace
(generator bindings added by `_env_add_generators`). -/
structure JinjaEnvironment where
  strict_undefined : Bool
  globals : CtxMap

/-- Embedding of `create_environment` of `template.py` (lines 267-300):
builds the TIM rendering environment with `undefined=StrictUndefined` and
the generator instances bound into `env.globals`.  Delimiter configuration
and filters do not affect undefined handling and are omitted. -/
def create_environment (generators : CtxMap) : JinjaEnvironment :=
  ⟨true, generators⟩

/-- The result of evaluating a template: a native value, or a jinja2
`Undefined` marker object (produced only under the lax default policy). -/
inductive Rendered where
  | val (v : Value) : Rendered
  | undef (name : String) : Rendered

/-- Modelled from the spec: the Jinja2 evaluation engine is an external
dependency (the `jinja2` package), so only its specified contract is
embedded.  A variable reference resolves against the render context first,
then the environment globals; with `StrictUndefined` an unresolved name
fails the render immediately with an `UndefinedError`, while the lax default
policy yields an `Undefined` marker value. -/
def environment_eval (env : JinjaEnvironment) (context : CtxMap)
    (t : Template) : Except String Rendered :=
  match t with
  | .lit v => .ok (.val v)
  | .var n =>
    match context.lookup n with
    | some v => .ok (.val v)
    | none =>
      match env.globals.lookup n with
      | some v => .ok (.val v)
      | none =>
        if env.strict_undefined then
          .error ("UndefinedError: " ++ n ++ " is undefined")
        else
          .ok (.undef n)

/-- Embedding of `render_template` of `template.py` (lines 303-327): render
the template against the context and, if the resulting native value is still
a jinja2 `Undefined` instance, raise via
`value._fail_with_undefined_error()`. -/
def render_template (env : JinjaEnvironment) (template : Template)
    (context : CtxMap) : Except String Value :=
  match environment_eval env context template with
  | .error e => .error e
  | .ok (.val v) => .ok v
  | .ok (.undef n) => .error ("UndefinedError: " ++ n ++ " is undefined")

/-- Model of `SeedStore` of `random.py`: stores the root (`mother`) seed and
owns the state of the stdlib PRNG `Random(mother_seed)` seeded from it
alone.  The Mersenne-Twister transition is an external stdlib dependency,
abstracted as a state type `σ` with a seeding function and a
`randint(-sys.maxsize, sys.maxsize)` step. -/
structure SeedStore (σ : Type) where
  mother_seed : Int
  rand : σ

/-- Constructor `SeedStore.__init__`: record the root seed and seed the PRNG
from it. -/
def SeedStore.init {σ : Type} (randomInit : Int → σ) (mother_seed : Int) :
    SeedStore σ :=
  ⟨mother_seed, randomInit mother_seed⟩

/-- Method `SeedStore.next` / `__next__`: draw the next seed from the owned
PRNG, advancing its state. -/
def SeedStore.next {σ : Type} (randint : σ → Int × σ) (s : SeedStore σ) :
    Int × SeedStore σ :=
  ((randint s.rand).1, ⟨s.mother_seed, (randint s.rand).2⟩)

/-- The sequence of the first `n` values returned by successive `next()`
calls on a store. -/
def SeedStore.draws {σ : Type} (randint : σ → Int × σ) :
    SeedStore σ → Nat → List Int
  | _, 0 => []
  | s, Nat.succ m =>
    (SeedStore.next randint s).1 ::
      SeedStore.draws randint (SeedStore.next randint s).2 m

/-- What `write_template` writes to `dest`: either a YAML serialization of
the rendered value or its textual representation (`str(value)`). -/
inductive FileOutput where
  | yamlDump (v : Value) : FileOutput
  | strOf (v : Value) : FileOutput

/-- Python `isinstance(v, Mapping)`. -/
def isMappingInstance : Value → Bool
  | .map _ => true
  | _ => false

/-- Python `isinstance(v, Text)` (i.e. `str`). -/
def isStrInstance : Value → Bool
  | .str _ => true
  | _ => false

/-- Python `isinstance(v, Sequence)`: lists are sequences, and so are
strings (which is why the source explicitly excludes `Text`). -/
def isSequenceInstance : Value → Bool
  | .list _ => true
  | .str _ => true
  | _ => false

/-- The output decision of `write_template` (`template.py` lines 330-350),
applied to the already-rendered native value: mappings and non-string
sequences are dumped as YAML (`yaml.dump`), everything else is written as
`str(template_rendered)`. -/
def write_template (template_rendered : Value) : FileOutput :=
  if isMappingInstance template_rendered
      || (!isStrInstance template_rendered
          && isSequenceInstance template_rendered) then
    .yamlDump template_rendered
  else
    .strOf template_rendered

/-- Serialization `BaseObject.dict` (pydantic `.dict()` with
`by_alias=True` forced, `template.py` lines 365-370): fields in declaration
order, with the internal `type_` and `copy_` fields mapped back to their
external aliases `type` and `copy`.  Serialization is total: it cannot fail
on an already-validated model. -/
def TemplateObject.dict : TemplateObject → Value
  | .file name extra src dest delete =>
    .map [("name", .str name), ("extra", .map extra), ("src", .str src),
      ("dest", .str dest), ("delete", .bool delete), ("type", .str "file")]
  | .dir name extra src dest delete copy contents =>
    .map [("name", .str name), ("extra", .map extra), ("src", .str src),
      ("dest", .str dest), ("delete", .bool delete), ("type", .str "dir"),
      ("copy", .list (copy.map .str)),
      ("contents", .list (contents.attach.map
        (fun c => TemplateObject.dict c.1)))]
termination_by t => sizeOf t
decreasing_by
  have := List.sizeOf_lt_of_mem c.2
  simp only [TemplateObject.dir.sizeOf_spec]
  omega

/-- Validation of a required `str` field. -/
def getStrField (kvs : CtxMap) (k : String) : Option String :=
  match CtxMap.lookup kvs k with
  | some (.str s) => some s
  | _ => none

/-- Validation of the optional `extra` dict field (default `{}`). -/
def getExtraField (kvs : CtxMap) : Option CtxMap :=
  match CtxMap.lookup kvs "extra" with
  | none => some []
  | some (.map m) => some m
  | some _ => none

/-- Validation of the optional `delete` bool field (default `True`). -/
def getDeleteField (kvs : CtxMap) : Option Bool :=
  match CtxMap.lookup kvs "delete" with
  | none => some true
  | some (.bool b) => some b
  | some _ => none

/-- Validation of a homogeneous list of strings. -/
def asStrList : List Value → Option (List String)
  | [] => some []
  | .str s :: rest =>
    match asStrList rest with
    | some ss => some (s :: ss)
    | none => none
  | _ :: _ => none

/-- Validation of the optional `copy` glob list field (default `[]`). -/
def getCopyField (kvs : CtxMap) : Option (List String) :=
  match CtxMap.lookup kvs "copy" with
  | none => some []
  | some (.list xs) => asStrList xs
  | some _ => none

mutual

/-- Schema validation of one manifest node against the `File`/`Directory`
pydantic models, discriminated by the external `type` field: required `name`,
`src`, `dest` strings; optional `extra` (default `{}`) and `delete` (default
`True`); for directories additionally optional `copy` (default `[]`) and
`contents` (default `[]`, validated recursively).  Unknown `type` tags,
missing required fields and ill-typed values fail validation. -/
def parseObject : Value → Option TemplateObject
  | .map kvs =>
    match CtxMap.lookup kvs "type" with
    | some (.str "file") =>
      match getStrField kvs "name", getExtraField kvs, getStrField kvs "src",
          getStrField kvs "dest", getDeleteField kvs with
      | some name, some extra, some src, some dest, some delete =>
        some (.file name extra src dest delete)
      | _, _, _, _, _ => none
    | some (.str "dir") =>
      match getStrField kvs "name", getExtraField kvs, getStrField kvs "src",
          getStrField kvs "dest", getDeleteField kvs, getCopyField kvs with
      | some name, some extra, some src, some dest, some delete, some copy =>
        match h : CtxMap.lookup kvs "contents" with
        | none => some (.dir name extra src dest delete copy [])
        | some (.list xs) =>
          match validate_object_list xs with
          | some contents =>
            some (.dir name extra src dest delete copy contents)
          | none => none
        | some _ => none
      | _, _, _, _, _, _ => none
    | _ => none
  | _ => none
termination_by v => sizeOf v
decreasing_by
  have key : ∀ (l : List (String × Value)) (v : Value),
      CtxMap.lookup l "contents" = some v → sizeOf v < sizeOf l := by
    intro l v hl
    induction l with
    | nil => simp [CtxMap.lookup] at hl
    | cons p rest ih =>
      obtain ⟨a, b⟩ := p
      simp only [CtxMap.lookup] at hl
      by_cases hp : a = "contents"
      · simp only [hp, if_pos] at hl
        cases hl
        simp only [List.cons.sizeOf_spec, Prod.mk.sizeOf_spec]
        omega
      · simp only [hp, if_false] at hl
        have := ih (by simpa [hp] using hl)
        simp only [List.cons.sizeOf_spec]
        omega
  have h1 := key _ _ h
  simp only [Value.list.sizeOf_spec, Value.map.sizeOf_spec] at h1 ⊢
  omega

/-- Embedding of `validate_object_list` of `template.py` (lines 429-442):
validate a raw object list via `parse_obj_as` against
`List[Union[File, Directory]]` with the `type` discriminator. -/
def validate_object_list : List Value → Option (List TemplateObject)
  | [] => some []
  | v :: rest =>
    match parseObject v, validate_object_list rest with
    | some t, some ts => some (t :: ts)
    | _, _ => none
termination_by l => sizeOf l
decreasing_by
  all_goals simp only [List.cons.sizeOf_spec]
  all_goals omega

end

theorem drainOrder_nil {α : Type} : drainOrder ([] : List α) = [] := by
  rw [drainOrder]

theorem drainOrder_cons {α : Type} (x : α) (xs : List α) :
    drainOrder (x :: xs) =
      (x :: xs).getLast (by simp) :: drainOrder (x :: xs).dropLast := by
  rw [drainOrder]

theorem drainOrder_concat {α : Type} (ys : List α) (y : α) :
    drainOrder (ys ++ [y]) = y :: drainOrder ys := by
  cases ys with
  | nil => simp [drainOrder_cons, drainOrder_nil]
  | cons a as =>
    rw [show (a :: as) ++ [y] = a :: (as ++ [y]) from rfl, drainOrder_cons]
    congr 1
    · simp [List.getLast_append]
    · congr 1
      show ((a :: as) ++ [y]).dropLast = a :: as
      exact List.dropLast_concat

/-- A LIFO drain visits the queue in exact reverse order of insertion. -/
theorem drainOrder_eq_reverse {α : Type} (q : List α) :
    drainOrder q = q.reverse := by
  induction q using List.reverseRecOn with
  | nil => exact drainOrder_nil
  | append_singleton ys y ih =>
    rw [drainOrder_concat, ih]
    simp

/-- During rendering, `render_tim` only creates, copies and renders: its
event trace contains no deletion events. -/
theorem render_tim_no_deletion_events (l : List TemplateObject) (sd dd : Path)
    (gc pc : CtxMap) (qd qf : List Path) :
    ∀ e ∈ (render_tim l sd dd gc pc qd qf).1, e.isDeletion = false := by
  match l with
  | [] =>
    simp [render_tim]
  | .file n ex s d del :: rest =>
    intro e he
    simp only [render_tim] at he
    rcases List.mem_cons.mp he with h | h
    · subst h
      rfl
    · exact render_tim_no_deletion_events rest sd dd gc pc qd _ e h
  | .dir n ex s d del cp cts :: rest =>
    intro e he
    simp only [render_tim] at he
    rcases List.mem_cons.mp he with h | h
    · subst h
      rfl
    · rcases List.mem_append.mp h with h2 | h2
      · rcases List.mem_map.mp h2 with ⟨g, _, hg⟩
        subst hg
        rfl
      · rcases List.mem_append.mp h2 with h3 | h3
        · exact render_tim_no_deletion_events cts _ _ gc _ _ qf e h3
        · exact render_tim_no_deletion_events rest sd dd gc pc _ _ e h3

theorem lookup_eq_none_of_not_any (d : CtxMap) (k : String)
    (h : d.any (fun p => p.1 = k) = false) : d.lookup k = none := by
  induction d with
  | nil => rfl
  | cons p rest ih =>
    simp only [List.any_cons, Bool.or_eq_false_iff, decide_eq_false_iff_not] at h
    simp [CtxMap.lookup, h.1, ih h.2]

theorem lookup_append_of_some (d1 d2 : CtxMap) (k : String) (v : Value)
    (h : d1.lookup k = some v) : CtxMap.lookup (d1 ++ d2) k = some v := by
  induction d1 with
  | nil => simp [CtxMap.lookup] at h
  | cons p rest ih =>
    simp only [CtxMap.lookup] at h ⊢
    by_cases hp : p.1 = k
    · simpa [hp] using h
    · simp only [hp, if_false] at h ⊢
      exact ih h

theorem lookup_append_of_none (d1 d2 : CtxMap) (k : String)
    (h : d1.lookup k = none) : CtxMap.lookup (d1 ++ d2) k = d2.lookup k := by
  induction d1 with
  | nil => rfl
  | cons p rest ih =>
    simp only [CtxMap.lookup] at h ⊢
    by_cases hp : p.1 = k
    · simp [hp] at h
    · simp only [hp, if_false] at h ⊢
      exact ih h

theorem lookup_map_set_ne (d : CtxMap) (k k' : String) (v : Value)
    (h : k' ≠ k) :
    CtxMap.lookup (d.map (fun p => if p.1 = k then (k, v) else p)) k'
      = d.lookup k' := by
  induction d with
  | nil => rfl
  | cons p rest ih =>
    by_cases hp : p.1 = k
    · simp [CtxMap.lookup, hp, Ne.symm h, ih]
    · simp [CtxMap.lookup, hp, ih]

theorem lookup_map_set_self (d : CtxMap) (k : String) (v : Value)
    (h : d.any (fun p => p.1 = k) = true) :
    CtxMap.lookup (d.map (fun p => if p.1 = k then (k, v) else p)) k
      = some v := by
  induction d with
  | nil => simp at h
  | cons p rest ih =>
    by_cases hp : p.1 = k
    · simp [CtxMap.lookup, hp]
    · simp only [List.any_cons, Bool.or_eq_true_iff, decide_eq_true_iff] at h
      rcases h with h | h

      · exact absurd h hp
      · simp [CtxMap.lookup, hp, ih h]

/-- Python `d[k] = v` observed through lookup: the stored key reads back the
new value, every other key is unchanged. -/
theorem lookup_set (d : CtxMap) (k k' : String) (v : Value) :
    (CtxMap.set d k v).lookup k' = if k' = k then some v else d.lookup k' := by
  unfold CtxMap.set
  by_cases hany : d.any (fun p => p.1 = k) = true
  · simp only [hany, if_true]
    by_cases hk : k' = k
    · subst hk
      simp [lookup_map_set_self d k' v hany]
    · simp [hk, lookup_map_set_ne d k k' v hk]
  · simp only [hany, if_false]
    have hnone := lookup_eq_none_of_not_any d k (Bool.eq_false_iff.mpr hany)
    by_cases hk : k' = k
    · subst hk
      simp [lookup_append_of_none d [(k', v)] k' hnone, CtxMap.lookup]
    · cases h' : d.lookup k' with
      | some w =>
        simp [hk, lookup_append_of_some d [(k, v)] k' w h']
      | none =>
        simp [hk, lookup_append_of_none d [(k, v)] k' h', CtxMap.lookup,
          Ne.symm, hk]

/-- Updating with the singleton dict `{k: v}` is a single `d[k] = v`. -/
theorem update_single (d : CtxMap) (k : String) (v : Value) :
    CtxMap.update d [(k, v)] = CtxMap.set d k v := rfl

/-- C1 (counterexample): the claim says a `File` whose `src` is already
present in the directory-deletion queue is not pushed onto the file-deletion
queue.  Rendering the manifest `[Directory(src="a", delete=true),
File(src="a", delete=true)]` from empty queues first queues `"a"` for
directory-deletion, yet the `File` still pushes `"a"` onto the file-deletion
queue: the guard in `render_tim` consults only `delete_files`. -/
theorem file_push_despite_queued_directory :
    (["a"] : Path) ∈ (render_tim
        [.dir "d" [] "a" "a" true [] [], .file "f" [] "a" "b" true]
        [] [] [] [] [] []).2.1
    ∧ (["a"] : Path) ∈ (render_tim
        [.dir "d" [] "a" "a" true [] [], .file "f" [] "a" "b" true]
        [] [] [] [] [] []).2.2 := by
  constructor <;> simp [render_tim, Path.joinpath]

/-- C1 (amended): in `render_tim`, a `File` node with `delete = true` pushes
its `src` onto the file-deletion queue if and only if `src` is not already
present in the file-deletion queue itself; the directory-deletion queue is
not consulted and is left unchanged by a `File` node. -/
theorem file_push_guard_checks_file_queue (n : String) (ex : CtxMap)
    (s d : String) (sd dd : Path) (gc pc : CtxMap) (qd qf : List Path) :
    ((render_tim [.file n ex s d true] sd dd gc pc qd qf).2.2
        = qf ++ [sd.joinpath s] ↔ sd.joinpath s ∉ qf)
    ∧ (sd.joinpath s ∈ qf →
        (render_tim [.file n ex s d true] sd dd gc pc qd qf).2.2 = qf)
    ∧ (render_tim [.file n ex s d true] sd dd gc pc qd qf).2.1 = qd := by
  by_cases h : sd.joinpath s ∈ qf
  · have hr : (render_tim [.file n ex s d true] sd dd gc pc qd qf).2.2 = qf := by
      simp [render_tim, h]
    refine ⟨⟨fun heq => ?_, fun hn => absurd h hn⟩, fun _ => hr, ?_⟩
    · exfalso
      have hlen : qf.length = (qf ++ [sd.joinpath s]).length := by
        rw [← heq, hr]
      simp at hlen
    · simp [render_tim]
  · refine ⟨⟨fun _ => h, fun _ => ?_⟩, fun hmem => absurd hmem h, ?_⟩
    · simp [render_tim, h]
    · simp [render_tim]

/-- C1 (witness). -/
theorem file_push_guard_checks_file_queue_witness :
    (render_tim [.file "f" [] "a" "b" true] [] [] [] [] [] [["a"]]).2.2
      = [["a"]] :=
  (file_push_guard_checks_file_queue "f" [] "a" "b" [] [] [] [] [] [["a"]]).2.1
    (by simp [Path.joinpath])

/-- Guarded pushes: `render_tim` preserves duplicate-freedom of the
file-deletion queue, because every push onto `delete_files` is guarded by
`src not in delete_files`. -/
theorem render_tim_delete_files_nodup (l : List TemplateObject) (sd dd : Path)
    (gc pc : CtxMap) (qd qf : List Path) (h : qf.Nodup) :
    ((render_tim l sd dd gc pc qd qf).2.2).Nodup := by
  match l with
  | [] =>
    simpa [render_tim] using h
  | .file n ex s d del :: rest =>
    simp only [render_tim]
    apply render_tim_delete_files_nodup rest sd dd gc pc qd
    by_cases hc : del = true ∧ sd.joinpath s ∉ qf
    · simp only [hc, and_self, if_pos, hc.1, hc.2]
      simp [List.nodup_append, h, hc.2]
    · simp only [if_neg hc]
      exact h
  | .dir n ex s d del cp cts :: rest =>
    simp only [render_tim]
    exact render_tim_delete_files_nodup rest sd dd gc pc _ _
      (render_tim_delete_files_nodup cts _ _ gc _ _ qf h)

/-- C10: starting from empty queues, the file-deletion queue returned by
`render_tim` never contains the same path twice, even when several `File`
nodes share the same `src` with `delete = true`. -/
theorem delete_files_queue_nodup (l : List TemplateObject) (sd dd : Path)
    (gc pc : CtxMap) :
    ((render_tim l sd dd gc pc [] []).2.2).Nodup :=
  render_tim_delete_files_nodup l sd dd gc pc [] [] List.nodup_nil

/-- C2: in a full render pass, the event trace of `setup_tsm` is the entire
render trace (which contains no deletion), followed by the file-deletion
queue drained in exact reverse order of insertion, followed by the
directory-deletion queue drained in exact reverse order of insertion: the
queues are drained only after the whole tree has been rendered, files
strictly before directories, each LIFO. -/
theorem deletion_phase_after_render_lifo (inputs ctx : CtxMap)
    (cfg : List TemplateObject) (dest : Path) :
    setup_tsm inputs ctx cfg dest =
      (render_tim cfg [] dest inputs ctx [] []).1
        ++ ((render_tim cfg [] dest inputs ctx [] []).2.2).reverse.map
            (fun f => Event.unlink (dest.join f))
        ++ ((render_tim cfg [] dest inputs ctx [] []).2.1).reverse.map
            (fun d => Event.rmtree (dest.join d))
      ∧ ∀ e ∈ (render_tim cfg [] dest inputs ctx [] []).1,
          e.isDeletion = false := by
  refine ⟨?_, render_tim_no_deletion_events cfg [] dest inputs ctx [] []⟩
  simp only [setup_tsm, drainOrder_eq_reverse, List.append_assoc]

/-- C2 (witness). -/
theorem deletion_phase_after_render_lifo_witness :
    Event.isDeletion
      (Event.writeTemplate ["a"] ["out", "b"] ⟨[], [], []⟩) = false :=
  (deletion_phase_after_render_lifo [] []
      [.file "f" [] "a" "b" true] ["out"]).2 _
    (by simp [render_tim, Path.joinpath])

/-- C3: for two sibling `Directory` subtrees, each child list is rendered
under a fresh copy of the current `parent_context` updated with its own
Directory's `extra` only.  A `File` under the second sibling is rendered with
`parent_context = pc.update {k2: v2}` — in which the first sibling's key `k1`
is absent (provided `k1` is not a key of the ambient `pc` and differs from
`k2`), while the second sibling's own key `k2` is visible. -/
theorem sibling_parent_context_isolation (gc pc : CtxMap) (k1 k2 : String)
    (v1 v2 : Value) (n1 s1 d1 : String) (del1 : Bool) (cp1 : List String)
    (cts1 : List TemplateObject) (n2 s2 d2 fn fs fd : String)
    (del2 fdel : Bool) (fe : CtxMap) (sd dd : Path) (qd qf : List Path)
    (hk : k1 ≠ k2) (hpc : pc.lookup k1 = none) :
    Event.writeTemplate ((sd.joinpath s2).joinpath fs)
        ((dd.joinpath d2).joinpath fd)
        ⟨gc, pc.update [(k2, v2)], fe⟩
      ∈ (render_tim
          [.dir n1 [(k1, v1)] s1 d1 del1 cp1 cts1,
           .dir n2 [(k2, v2)] s2 d2 del2 [] [.file fn fe fs fd fdel]]
          sd dd gc pc qd qf).1
    ∧ (pc.update [(k2, v2)]).lookup k2 = some v2
    ∧ (pc.update [(k2, v2)]).lookup k1 = none := by
  refine ⟨?_, ?_, ?_⟩
  · simp [render_tim]
  · rw [update_single, lookup_set]
    simp
  · rw [update_single, lookup_set]
    simp [hk, hpc]

/-- C3 (witness). -/
theorem sibling_parent_context_isolation_witness :
    (CtxMap.update [] [("b", Value.int 2)]).lookup "a" = none :=
  (sibling_parent_context_isolation [] [] "a" "b" (Value.int 1) (Value.int 2)
      "dA" "a" "a" true [] [] "dB" "b" "b" "f" "f.j2" "f" true true [] [] []
      [] [] (by simp) rfl).2.2

/-- C4: rendering a template that references a name bound neither in the
context nor in the environment globals fails with an error at render time
and never returns any value (empty, placeholder or otherwise). -/
theorem strict_undefined_render_fails (generators context : CtxMap)
    (n : String) (hc : context.lookup n = none)
    (hg : (create_environment generators).globals.lookup n = none) :
    render_template (create_environment generators) (.var n) context
      = .error ("UndefinedError: " ++ n ++ " is undefined")
    ∧ ∀ v, render_template (create_environment generators) (.var n) context
        ≠ .ok v := by
  have h : render_template (create_environment generators) (.var n) context
      = .error ("UndefinedError: " ++ n ++ " is undefined") := by
    have hg' : generators.lookup n = none := hg
    simp [render_template, environment_eval, hc, hg', create_environment]
  exact ⟨h, fun v hv => by rw [h] at hv; exact Except.noConfusion hv⟩

/-- C4 (witness): the template string `"{{ missing_name }}"` rendered
against the empty context fails. -/
theorem strict_undefined_render_fails_witness :
    render_template (create_environment []) (.var "missing_name") []
      = .error ("UndefinedError: " ++ "missing_name" ++ " is undefined") :=
  (strict_undefined_render_fails [] [] "missing_name" rfl rfl).1

/-- C5 (code divergence): in `setup_tsm` the call
`render_tim(render_env, object_config, Path("."), dest, inputs, context)`
binds `render_tim`'s `global_context` parameter — and therefore every
rendered File's `context` key — to the CLI `inputs` mapping, while the
mapping rendered from the context document is passed as the root
`parent_context`.  Evaluated at inputs `{"i": 1}` and rendered context
document `{"c": 2}`: the File's `context` key receives `{"i": 1}`, not the
rendered context document. -/
theorem setup_tsm_context_key_is_inputs :
    setup_tsm [("i", Value.int 1)] [("c", Value.int 2)]
        [.file "f" [] "t.j2" "t" true] []
      = [Event.writeTemplate ["t.j2"] ["t"]
          ⟨[("i", Value.int 1)], [("c", Value.int 2)], []⟩,
         Event.unlink ["t.j2"]]
    ∧ ([("i", Value.int 1)] : CtxMap) ≠ [("c", Value.int 2)] := by
  constructor
  · simp [setup_tsm, render_tim, Path.joinpath, Path.join,
      drainOrder_eq_reverse]
  · simp

/-- C6: two `SeedStore` instances constructed with the same root seed produce
identical sequences of the first `n` values returned by `next()`: the
derived-seed sequence is a function of the root seed (and the fixed PRNG
algorithm) alone. -/
theorem seed_store_deterministic {σ : Type} (randomInit : Int → σ)
    (randint : σ → Int × σ) (S : Int) (n : Nat) (s1 s2 : SeedStore σ)
    (h1 : s1 = SeedStore.init randomInit S)
    (h2 : s2 = SeedStore.init randomInit S) :
    SeedStore.draws randint s1 n = SeedStore.draws randint s2 n := by
  subst h1
  subst h2
  rfl

/-- C6 (witness). -/
theorem seed_store_deterministic_witness :
    SeedStore.draws (fun s => (s, s + 1))
        (SeedStore.init (fun x => x) 1337) 3
      = SeedStore.draws (fun s => (s, s + 1))
        (SeedStore.init (fun x => x) 1337) 3 :=
  seed_store_deterministic (fun x => x) (fun s => (s, s + 1)) 1337 3 _ _
    rfl rfl

/-- C8: if the rendered value is a mapping, or a sequence that is not a
string, the value written to `dest` is its YAML serialization; every other
rendered value (strings and scalars) is written as its textual
representation. -/
theorem write_template_yaml_or_text (v : Value) :
    ((∃ kvs, v = .map kvs) ∨ ((∀ s, v ≠ .str s) ∧ ∃ xs, v = .list xs) →
      write_template v = .yamlDump v)
    ∧ (¬ ((∃ kvs, v = .map kvs) ∨ ((∀ s, v ≠ .str s) ∧ ∃ xs, v = .list xs)) →
      write_template v = .strOf v) := by
  cases v <;>
    simp [write_template, isMappingInstance, isStrInstance,
      isSequenceInstance]

/-- C8 (witness). -/
theorem write_template_yaml_or_text_witness :
    write_template (.int 3) = .strOf (.int 3) :=
  (write_template_yaml_or_text (.int 3)).2 (by simp)

/-- The `contents` field of a serialized directory is just the element-wise
serialization. -/
theorem dict_dir_eq (name : String) (extra : CtxMap) (src dest : String)
    (delete : Bool) (copy : List String) (contents : List TemplateObject) :
    TemplateObject.dict (.dir name extra src dest delete copy contents) =
      .map [("name", .str name), ("extra", .map extra), ("src", .str src),
        ("dest", .str dest), ("delete", .bool delete), ("type", .str "dir"),
        ("copy", .list (copy.map .str)),
        ("contents", .list (contents.map TemplateObject.dict))] := by
  rw [TemplateObject.dict]
  congr 1
  simp

theorem asStrList_map_str (ss : List String) :
    asStrList (ss.map Value.str) = some ss := by
  induction ss with
  | nil => rfl
  | cons s rest ih => simp [asStrList, ih]

mutual

theorem parseObject_dict_roundtrip (t : TemplateObject) :
    parseObject (TemplateObject.dict t) = some t := by
  match t with
  | .file name extra src dest delete =>
    simp [TemplateObject.dict, parseObject, CtxMap.lookup, getStrField,
      getExtraField, getDeleteField]
  | .dir name extra src dest delete copy contents =>
    rw [dict_dir_eq]
    simp [parseObject, CtxMap.lookup, getStrField, getExtraField,
      getDeleteField, getCopyField, asStrList_map_str,
      validate_object_list_dict_roundtrip contents]
termination_by sizeOf t
decreasing_by
  simp only [TemplateObject.dir.sizeOf_spec]
  omega

theorem validate_object_list_dict_roundtrip (l : List TemplateObject) :
    validate_object_list (l.map TemplateObject.dict) = some l := by
  match l with
  | [] => simp [validate_object_list]
  | t :: rest =>
    simp [validate_object_list, parseObject_dict_roundtrip t,
      validate_object_list_dict_roundtrip rest]
termination_by sizeOf l
decreasing_by
  all_goals simp only [List.cons.sizeOf_spec]
  all_goals omega

end

/-- C7: serializing a validated manifest node list (each node's `.dict()`
serialization with the external aliases `type` and `copy`) and re-parsing it
through `validate_object_list` yields the original node list; serialization
itself is a total function and never fails. -/
theorem manifest_serialization_roundtrip (l : List TemplateObject) :
    validate_object_list (l.map TemplateObject.dict) = some l :=
  validate_object_list_dict_roundtrip l

/-- Monotonicity: `render_tim` only ever appends to the directory-deletion
queue, so queued paths stay queued. -/
theorem render_tim_delete_dirs_mono (l : List TemplateObject) (sd dd : Path)
    (gc pc : CtxMap) (qd qf : List Path) (p : Path) (hp : p ∈ qd) :
    p ∈ (render_tim l sd dd gc pc qd qf).2.1 := by
  match l with
  | [] => simpa [render_tim] using hp
  | .file n ex s d del :: rest =>
    simp only [render_tim]
    exact render_tim_delete_dirs_mono rest sd dd gc pc qd _ p hp
  | .dir n ex s d del cp cts :: rest =>
    simp only [render_tim]
    apply render_tim_delete_dirs_mono rest sd dd gc pc _ _ p
    apply render_tim_delete_dirs_mono cts _ _ gc _ _ qf p
    by_cases hc : del = true ∧ sd.joinpath s ∉ qf
    · simp only [if_pos hc]
      exact List.mem_append_left _ hp
    · simp only [if_neg hc]
      exact hp

/-- C9: a manifest node (File or Directory) parsed without an explicit
`delete` key has `delete = true`, and consequently rendering it (from empty
queues) queues its source path for deletion: in the file-deletion queue for
a `File`, in the directory-deletion queue for a `Directory`. -/
theorem omitted_delete_defaults_to_true (kvs : CtxMap) (t : TemplateObject)
    (hnod : CtxMap.lookup kvs "delete" = none)
    (hp : parseObject (.map kvs) = some t) :
    t.delete = true
    ∧ ∀ (sd dd : Path) (gc pc : CtxMap),
        sd.joinpath t.src
          ∈ (render_tim [t] sd dd gc pc [] []).2.1
            ++ (render_tim [t] sd dd gc pc [] []).2.2 := by
  have hdel : getDeleteField kvs = some true := by
    simp [getDeleteField, hnod]
  have ht : t.delete = true := by
    simp only [parseObject] at hp
    split at hp
    · split at hp
      · injection hp with h2
        subst h2
        simp_all [TemplateObject.delete]
      · simp at hp
    · split at hp
      · split at hp
        · injection hp with h2
          subst h2
          simp_all [TemplateObject.delete]
        · split at hp
          · injection hp with h2
            subst h2
            simp_all [TemplateObject.delete]
          · simp at hp
        · simp at hp
      · simp at hp
    · simp at hp
  refine ⟨ht, fun sd dd gc pc => ?_⟩
  cases t with
  | file n ex s d del =>
    have hd : del = true := ht
    subst hd
    simp [render_tim, TemplateObject.src]
  | dir n ex s d del cp cts =>
    have hd : del = true := ht
    subst hd
    simp only [render_tim, TemplateObject.src]
    apply List.mem_append_left
    simp only [List.not_mem_nil, not_false_iff, and_true, List.nil_append,
      if_true, List.append_nil]
    exact render_tim_delete_dirs_mono cts _ _ gc _ _ _ _ (by simp)

/-- C9 (witness). -/
theorem omitted_delete_defaults_to_true_witness :
    TemplateObject.delete (.file "f" [] "a" "b" true) = true :=
  (omitted_delete_defaults_to_true
      [("type", .str "file"), ("name", .str "f"), ("src", .str "a"),
        ("dest", .str "b")]
      (.file "f" [] "a" "b" true) rfl
      (by simp [parseObject, CtxMap.lookup, getStrField, getExtraField,
        getDeleteField])).1

end Kyoushi
